import Mathlib

/-!
Shallow embedding of the LiDAR-catalog QGIS plugin (`3d_geo_modeler`):
the metadata extractor and catalog builder of
`processing/create_laz_index.py`, the merge operation of
`processing/merge_laz.py`, the delete operation of
`processing/delete_laz.py`, the remote-fetch operation of
`processing/download_laz.py`, and the folder filter of
`processing/assign_crs.py`.

External effects (the file system, the `pdal` tool, the FTPS server,
GEOS validity) are modelled as oracle parameters; all data flow and
control flow is translated directly from the Python source.
-/

deriving instance DecidableEq for Except

namespace GeoModeler

/-! ## Character-level model of the two regular expressions

`create_laz_index.py` extracts EPSG codes with
`re.findall(r'AUTHORITY\["EPSG","(\d+)"\]', wkt_string)` and axis labels
with `re.findall(r'AXIS\["([^"]+)",([^\]]+)\]', wkt_string)`.  Both
patterns are literal texts around simple character classes, so
`findall`'s leftmost, non-overlapping scan is modelled by a scanner over
the character list with a fuel argument bounded by the text length. -/

abbrev Chars := List Char

/-- Match a literal list of characters at the head of the input, returning
the remainder on success. -/
def matchLit : Chars → Chars → Option Chars
  | [], rest => some rest
  | _, [] => none
  | l :: ls, c :: cs => if c = l then matchLit ls cs else none

/-- Longest non-empty run of characters satisfying `p` at the head of the
input (`p+` in the regular expression), with the remainder. -/
def takeRun (p : Char → Bool) (cs : Chars) : Option (Chars × Chars) :=
  let t := cs.takeWhile p
  if t.isEmpty then none else some (t, cs.drop t.length)

def digitsToNat (ds : Chars) : Nat :=
  ds.foldl (fun a c => 10 * a + (c.toNat - '0'.toNat)) 0

/-- One attempted match of `AUTHORITY\["EPSG","(\d+)"\]` at the current
position; on success, the captured code and the rest of the text. -/
def matchAuthorityAt (cs : Chars) : Option (Nat × Chars) := do
  let r1 ← matchLit ("AUTHORITY[\"EPSG\",\"".data) cs
  let (ds, r2) ← takeRun (fun c => c.isDigit) r1
  let r3 ← matchLit ("\"]".data) r2
  pure (digitsToNat ds, r3)

/-- One attempted match of `AXIS\["([^"]+)",([^\]]+)\]` at the current
position; on success, the first capture (the axis label) and the rest. -/
def matchAxisAt (cs : Chars) : Option (String × Chars) := do
  let r1 ← matchLit ("AXIS[\"".data) cs
  let (label, r2) ← takeRun (fun c => c ≠ '"') r1
  let r3 ← matchLit ("\",".data) r2
  let (_, r4) ← takeRun (fun c => c ≠ ']') r3
  let r5 ← matchLit ("]".data) r4
  pure (String.mk label, r5)

/-- `re.findall` scan for the AUTHORITY pattern: leftmost match, then
continue after the matched text; otherwise advance one character. -/
def findAuthorityAux : Nat → Chars → List Nat
  | 0, _ => []
  | _ + 1, [] => []
  | fuel + 1, c :: cs =>
    match matchAuthorityAt (c :: cs) with
    | some (n, rest) => n :: findAuthorityAux fuel rest
    | none => findAuthorityAux fuel cs

/-- All EPSG authority codes in a spatial-reference text, in order of
occurrence — `re.findall(r'AUTHORITY\["EPSG","(\d+)"\]', wkt_string)`. -/
def findAuthorityCodes (s : String) : List Nat :=
  findAuthorityAux s.data.length s.data

/-- `re.findall` scan for the AXIS pattern. -/
def findAxisAux : Nat → Chars → List String
  | 0, _ => []
  | _ + 1, [] => []
  | fuel + 1, c :: cs =>
    match matchAxisAt (c :: cs) with
    | some (label, rest) => label :: findAxisAux fuel rest
    | none => findAxisAux fuel cs

/-- `extract_axis_order` of `create_laz_index.py`: the axis labels (first
captures of the AXIS pattern) in order of occurrence. -/
def extract_axis_order (s : String) : List String :=
  findAxisAux s.data.length s.data

/-! ## The per-tile EPSG / axis-order extraction loop

`create_laz_index.py`, lines 127-143: the four candidate metadata fields
are scanned in order; every non-empty candidate updates `epsg` (to the
last AUTHORITY occurrence in it, when it has one) and `axis_order`; the
loop breaks at the first candidate whose axis-label list is non-empty. -/

def extractEpsgAxis : List String → Option Nat → List String → Option Nat × List String
  | [], epsg, axis_order => (epsg, axis_order)
  | s :: rest, epsg, axis_order =>
    if s.isEmpty then extractEpsgAxis rest epsg axis_order
    else
      let ms := findAuthorityCodes s
      let epsg1 := if ms.isEmpty then epsg else ms.getLast?
      let ax := extract_axis_order s
      if ax.isEmpty then extractEpsgAxis rest epsg1 ax else (epsg1, ax)

/-- The loop with its Python initial state `epsg = None`, `axis_order = []`. -/
def extractFromSources (sources : List String) : Option Nat × List String :=
  extractEpsgAxis sources none []

/-- The candidate text at which the extraction loop stops: the first
non-empty candidate whose axis-label list is non-empty. -/
def selectedWkt : List String → Option String
  | [] => none
  | s :: rest =>
    if s.isEmpty then selectedWkt rest
    else if (extract_axis_order s).isEmpty then selectedWkt rest
    else some s

/-! ## Boundary geometry (`create_geometry` and the MultiPolygon branch)

Coordinates from the `boundary_json` are modelled as pairs of integers
(the claims concern only how pairs are ordered and swapped, never
coordinate arithmetic). -/

abbrev Pt := Int × Int

inductive Geom
  | polygonXY (rings : List (List Pt))
  | multiPolygonXY (polys : List (List (List Pt)))
deriving DecidableEq

/-- `create_geometry` of `create_laz_index.py` (lines 92-105).  The Python
accesses `coordinates[0]` (only the outer ring); call sites guard
`if coordinates:` so the list is non-empty there, and `headD []` models
the access.  An unsupported axis order raises `ValueError`, modelled as
`.error`. -/
def create_geometry (coordinates : List (List Pt)) (axis_order : List String) :
    Except String Geom :=
  if axis_order.take 2 = ["Easting", "Northing"] then
    .ok (.polygonXY [(coordinates.headD []).map (fun p => (p.1, p.2))])
  else if axis_order.take 2 = ["Northing", "Easting"] then
    .ok (.polygonXY [(coordinates.headD []).map (fun p => (p.2, p.1))])
  else
    .error "Unsupported or unexpected axis order"

/-- The inline MultiPolygon construction of `processAlgorithm`
(lines 168-176): each point is kept as `(x, y)` when the first two axis
labels are `["Easting", "Northing"]` and swapped to `(y, x)` otherwise —
with no error branch. -/
def multiPolygonRings (multi_coordinates : List (List (List Pt)))
    (axis_order : List String) : Geom :=
  .multiPolygonXY (multi_coordinates.map (fun poly_coords =>
    poly_coords.map (fun ring_coords =>
      ring_coords.map (fun p =>
        if axis_order.take 2 = ["Easting", "Northing"] then (p.1, p.2)
        else (p.2, p.1)))))

/-- The decoded `boundary.boundary_json` value of the `pdal info` output. -/
inductive BoundaryJson
  | polygon (coordinates : List (List Pt))
  | multiPolygon (coordinates : List (List (List Pt)))
  | otherType
deriving DecidableEq

/-- Lines 153-176: `geometry` starts as `None`; a Polygon boundary with
non-empty coordinates goes through `create_geometry` (which may raise), a
MultiPolygon boundary with non-empty coordinates is built inline (never
raises), anything else leaves `geometry = None`. -/
def buildBoundary (b : Option BoundaryJson) (axis_order : List String) :
    Except String (Option Geom) :=
  match b with
  | none => .ok none
  | some (.polygon coordinates) =>
    if coordinates.isEmpty then .ok none
    else (create_geometry coordinates axis_order).map some
  | some (.multiPolygon multi_coordinates) =>
    if multi_coordinates.isEmpty then .ok none
    else .ok (some (multiPolygonRings multi_coordinates axis_order))
  | some .otherType => .ok none

/-! ## The catalog build (`LazInfoToGPKG.processAlgorithm`) -/

structure SrsInfo where
  compoundwkt : String
  wkt : String
deriving DecidableEq

structure Metadata where
  comp_spatialreference : String
  spatialreference : String
  srs : SrsInfo
  compressed : Bool
  copc : Bool
deriving DecidableEq

/-- One file of the input folder together with the outcome of `pdal info`
on it: `pdalOk = false` models `subprocess.CalledProcessError`. -/
structure FileInfo where
  fileName : String
  pdalOk : Bool
  metadata : Metadata
  boundary : Option BoundaryJson
deriving DecidableEq

/-- The `wkt_sources` list of lines 127-132, in its fixed priority order. -/
def wktSources (m : Metadata) : List String :=
  [m.comp_spatialreference, m.spatialreference, m.srs.compoundwkt, m.srs.wkt]

/-- One record of the catalog layer (line 77-82 / 205). -/
structure CatalogRecord where
  filename : String
  epsg : Nat
  encoding : String
  copc : Bool
deriving DecidableEq

/-- Per-file feedback messages of the build loop. -/
inductive Event
  | processing (name : String)
  | pdalError (name : String)
  | invalidGeometry (name : String)
  | missingCrs (name : String)
  | crsMismatch (name : String)
deriving DecidableEq

/-- `self.first_crs`, the in-memory layer contents, and the feedback log.
The writer layer of line 190 exists exactly when `first_crs` is set. -/
structure BuildState where
  first_crs : Option Nat
  records : List CatalogRecord
  events : List Event
deriving DecidableEq

def logEvent (st : BuildState) (e : Event) : BuildState :=
  { st with events := st.events ++ [e] }

/-- Python `str.endswith`, character by character: the tail of `s` of the
suffix's length equals the suffix. -/
def strEndsWith (s suffText : String) : Bool :=
  decide (s.data.drop (s.data.length - suffText.data.length) = suffText.data)

/-- Python `str.lower`, character by character (the filenames involved
are ASCII). -/
def strToLower (s : String) : String := String.mk (s.data.map Char.toLower)

/-- Line 109: `file_name.endswith(('.laz', '.las'))` — a case-sensitive
suffix test. -/
def catalogSuffixOK (name : String) : Bool :=
  strEndsWith name ".laz" || strEndsWith name ".las"

/-- Lines 187-206: set `first_crs` from the first accepted file (creating
the writer), skip a file whose EPSG differs from `first_crs`, otherwise
append the record. -/
def acceptOrSkip (st : BuildState) (f : FileInfo) (epsg : Nat) (encoding : String) :
    BuildState :=
  let st1 := if st.first_crs = none then { st with first_crs := some epsg } else st
  if st1.first_crs ≠ some epsg then logEvent st1 (.crsMismatch f.fileName)
  else { st1 with
    records := st1.records ++ [⟨f.fileName, epsg, encoding, f.metadata.copc⟩] }

/-- One iteration of the build loop (lines 108-206) on one directory
entry.  `valid` is the GEOS validity oracle (`geometry.isGeosValid()`).
A `ValueError` escaping `create_geometry` is an `.error` that aborts the
whole fold. -/
def stepFile (valid : Geom → Bool) (st : BuildState) (f : FileInfo) :
    Except String BuildState :=
  if catalogSuffixOK f.fileName then
    let st1 := logEvent st (.processing f.fileName)
    if f.pdalOk then
      let ex := extractFromSources (wktSources f.metadata)
      let encoding := if f.metadata.compressed then "laz" else "las"
      match buildBoundary f.boundary ex.2 with
      | .error e => .error e
      | .ok none => .ok (logEvent st1 (.invalidGeometry f.fileName))
      | .ok (some g) =>
        if ¬ valid g then .ok (logEvent st1 (.invalidGeometry f.fileName))
        else
          match ex.1 with
          | none => .ok (logEvent st1 (.missingCrs f.fileName))
          | some epsg =>
            if epsg = 0 then .ok (logEvent st1 (.missingCrs f.fileName))
            else .ok (acceptOrSkip st1 f epsg encoding)
    else .ok (logEvent st1 (.pdalError f.fileName))
  else .ok st

/-- The whole build over the directory listing, starting from
`first_crs = None` and an empty layer. -/
def buildCatalog (valid : Geom → Bool) (files : List FileInfo) :
    Except String BuildState :=
  files.foldlM (stepFile valid) ⟨none, [], []⟩

/-- `assign_crs.py`, line 89: the folder filter of the assign-CRS
operation lower-cases the name before the suffix test. -/
def assignCrsFiles (names : List String) : List String :=
  names.filter (fun f =>
    strEndsWith (strToLower f) ".las" || strEndsWith (strToLower f) ".laz")

/-! ## Merge (`MergeLAZFiles.processAlgorithm`, `merge_laz.py`)

The file system is the oracle `ex : String → Bool`
(`os.path.exists`). -/

/-- `os.path.join(folder, name)` for a relative name. -/
def joinPath (folder name : String) : String := folder ++ "/" ++ name

inductive MergeErr
  | notConfirmed
  | noSelection
  | tooFewFiles
deriving DecidableEq

/-- Outcome of one merge invocation: the per-item skip reports (the paths
passed to `feedback.reportError`), the external `pdal merge` command when
it is reached, and the fatal precondition error otherwise. -/
structure MergeRun where
  reports : List String
  command : Option (List String)
  fatal : Option MergeErr
deriving DecidableEq

/-- Line 142: `--writers.copc.a_srs=EPSG:{srid}`. -/
def crsArgument (srid : Nat) : String :=
  "--writers.copc.a_srs=EPSG:" ++ toString srid

/-- Lines 120-127: collect the resolvable paths (`laz_files`) and the
reported skips, in selection order; a record is skipped when its filename
is empty or its joined path does not exist. -/
def collectLazFiles (ex : String → Bool) (folder : String) (names : List String) :
    List String × List String :=
  names.foldl (fun acc fn =>
    let p := joinPath folder fn
    if fn = "" ∨ ¬ ex p then (acc.1, acc.2 ++ [p]) else (acc.1 ++ [p], acc.2))
    ([], [])

/-- Lines 95-146 (up to the external invocation): confirmation gate, then
selection gate, then path collection, then the two-file minimum, then the
single `pdal merge` command over the valid paths, the output file and the
explicit CRS argument. -/
def mergeProcess (ex : String → Bool) (folder outputFile : String) (srid : Nat)
    (names : List String) (confirm : Bool) : MergeRun :=
  if ¬ confirm then ⟨[], none, some .notConfirmed⟩
  else if names = [] then ⟨[], none, some .noSelection⟩
  else if (collectLazFiles ex folder names).1.length < 2 then
    ⟨(collectLazFiles ex folder names).2, none, some .tooFewFiles⟩
  else
    ⟨(collectLazFiles ex folder names).2,
     some (["pdal", "merge"] ++ (collectLazFiles ex folder names).1 ++
       [outputFile, crsArgument srid]),
     none⟩

/-! ## Delete (`DeleteFeaturesAndLAZFiles.processAlgorithm`, `delete_laz.py`)

Oracles: `ex` for `os.path.exists`, `rmOk` for whether `os.remove`
succeeds. -/

/-- One selected feature: its id and the filename attribute. -/
structure DeleteItem where
  fid : Nat
  filename : String
deriving DecidableEq

inductive DeleteErr
  | folderMissing
  | noSelection
  | notConfirmed
deriving DecidableEq

/-- Accumulated loop state of lines 115-138: the ids marked for removal,
the two counters' sources, the removed paths and the reported paths. -/
structure DeleteOutcome where
  features_to_delete : List Nat
  laz_files_deleted : Nat
  removed : List String
  reports : List String
deriving DecidableEq

/-- Lines 118-138, one selected feature: a missing file is reported and
skipped; a successful `os.remove` increments the file counter and marks
the feature; a failing `os.remove` is reported and marks nothing. -/
def deleteStep (ex rmOk : String → Bool) (folder : String)
    (st : DeleteOutcome) (it : DeleteItem) : DeleteOutcome :=
  let p := joinPath folder it.filename
  if ¬ ex p then { st with reports := st.reports ++ [p] }
  else if rmOk p then
    { st with
      removed := st.removed ++ [p]
      laz_files_deleted := st.laz_files_deleted + 1
      features_to_delete := st.features_to_delete ++ [it.fid] }
  else { st with reports := st.reports ++ [p] }

/-- Lines 84-151: folder gate (line 98), selection gate (line 105),
confirmation gate (line 109) — in that order — then the per-feature
loop. -/
def deleteProcess (ex rmOk : String → Bool) (folderOk : Bool) (folder : String)
    (items : List DeleteItem) (confirm : Bool) : Except DeleteErr DeleteOutcome :=
  if ¬ folderOk then .error .folderMissing
  else if items = [] then .error .noSelection
  else if ¬ confirm then .error .notConfirmed
  else .ok (items.foldl (deleteStep ex rmOk folder) ⟨[], 0, [], []⟩)

/-! ## Remote fetch (`DownloadFilesFromFTPS.processAlgorithm`,
`download_laz.py`)

Oracles: `dlOk` for whether opening the local file and `retrbinary`
succeed, `unpackOk` for whether `ZipFile(...).extractall` succeeds. -/

structure DlItem where
  fid : Nat
  filename : String
deriving DecidableEq

inductive DlEvent
  | skippedNoFilename (fid : Nat)
  | downloaded (name : String)
  | unpacked (name : String)
  | failed (name : String)
deriving DecidableEq

structure DlState where
  downloaded_files : Nat
  events : List DlEvent
deriving DecidableEq

/-- Line 185: `filename.lower().endswith('.zip')`. -/
def isZipName (name : String) : Bool := strEndsWith (strToLower name) ".zip"

/-- Lines 168-191, one selected feature: empty filename skipped; a failed
retrieval reported; a completed retrieval increments `downloaded_files`
at once; the optional unpack afterwards may fail, which is reported by
the same `except` without touching the counter. -/
def dlStep (dlOk unpackOk : String → Bool) (unpackZip : Bool)
    (st : DlState) (it : DlItem) : DlState :=
  if it.filename = "" then
    { st with events := st.events ++ [.skippedNoFilename it.fid] }
  else if ¬ dlOk it.filename then
    { st with events := st.events ++ [.failed it.filename] }
  else
    let st1 : DlState :=
      { st with
        downloaded_files := st.downloaded_files + 1
        events := st.events ++ [.downloaded it.filename] }
    if unpackZip ∧ isZipName it.filename then
      if unpackOk it.filename then
        { st1 with events := st1.events ++ [.unpacked it.filename] }
      else
        { st1 with events := st1.events ++ [.failed it.filename] }
    else st1

/-- The download loop of lines 167-194 over the selected features. -/
def downloadProcess (dlOk unpackOk : String → Bool) (unpackZip : Bool)
    (items : List DlItem) : DlState :=
  items.foldl (dlStep dlOk unpackOk unpackZip) ⟨0, []⟩

/-! ## Lemmas about the extraction loop -/

/-- If the loop stops at candidate `s` and `s` contains at least one
AUTHORITY occurrence, the resulting EPSG is the last occurrence in `s`,
whatever EPSG and axis state. the loop carried into it. -/
theorem extractEpsgAxis_selected (sources : List String) :
    ∀ (e : Option Nat) (a : List String) (s : String),
    selectedWkt sources = some s → findAuthorityCodes s ≠ [] →
    (extractEpsgAxis sources e a).1 = (findAuthorityCodes s).getLast? := by
  induction sources with
  | nil => intro e a s h; simp [selectedWkt] at h
  | cons t rest ih =>
    intro e a s hsel hne
    by_cases ht : t.isEmpty
    · simp only [selectedWkt, if_pos ht] at hsel
      simp only [extractEpsgAxis, if_pos ht]
      exact ih e a s hsel hne
    · by_cases hax : (extract_axis_order t).isEmpty
      · simp only [selectedWkt, if_neg ht, if_pos hax] at hsel
        simp only [extractEpsgAxis, if_neg ht, if_pos hax]
        exact ih _ _ s hsel hne
      · simp only [selectedWkt, if_neg ht, if_neg hax, Option.some.injEq] at hsel
        subst hsel
        simp only [extractEpsgAxis, if_neg ht, if_neg hax]
        have hms : ¬ (findAuthorityCodes t).isEmpty := by
          simpa [List.isEmpty_iff] using hne
        simp [hms]

/-- Once a non-empty candidate with a non-empty axis-label list is
reached, everything after it is irrelevant to the extraction result. -/
theorem extractEpsgAxis_stop_eq (l1 : List String) :
    ∀ (s : String) (l2 l2' : List String) (e : Option Nat) (a : List String),
    ¬ s.isEmpty → ¬ (extract_axis_order s).isEmpty →
    extractEpsgAxis (l1 ++ s :: l2) e a = extractEpsgAxis (l1 ++ s :: l2') e a := by
  induction l1 with
  | nil =>
    intro s l2 l2' e a hs hax
    simp only [List.nil_append, extractEpsgAxis, if_neg hs, if_neg hax]
  | cons t ts ih =>
    intro s l2 l2' e a hs hax
    by_cases ht : t.isEmpty
    · simp only [List.cons_append, extractEpsgAxis, if_pos ht]
      exact ih s l2 l2' e a hs hax
    · by_cases htax : (extract_axis_order t).isEmpty
      · simp only [List.cons_append, extractEpsgAxis, if_neg ht, if_pos htax]
        exact ih s l2 l2' _ _ hs hax
      · simp only [List.cons_append, extractEpsgAxis, if_neg ht, if_neg htax]

/-- When no candidate before `s` stops the loop, the resulting axis order
is exactly the axis-label list of `s`. -/
theorem extractEpsgAxis_stop_axis (l1 : List String) :
    ∀ (s : String) (l2 : List String) (e : Option Nat) (a : List String),
    (∀ t ∈ l1, t.isEmpty = true ∨ (extract_axis_order t).isEmpty = true) →
    ¬ s.isEmpty → ¬ (extract_axis_order s).isEmpty →
    (extractEpsgAxis (l1 ++ s :: l2) e a).2 = extract_axis_order s := by
  induction l1 with
  | nil =>
    intro s l2 e a _ hs hax
    simp only [List.nil_append, extractEpsgAxis, if_neg hs, if_neg hax]
  | cons t ts ih =>
    intro s l2 e a hl1 hs hax
    have ht' := hl1 t (List.mem_cons_self t ts)
    have hts : ∀ u ∈ ts, u.isEmpty = true ∨ (extract_axis_order u).isEmpty = true :=
      fun u hu => hl1 u (List.mem_cons_of_mem t hu)
    by_cases ht : t.isEmpty
    · simp only [List.cons_append, extractEpsgAxis, if_pos ht]
      exact ih s l2 e a hts hs hax
    · have htax : (extract_axis_order t).isEmpty := by
        rcases ht' with h | h
        · exact absurd h ht
        · exact h
      simp only [List.cons_append, extractEpsgAxis, if_neg ht, if_pos htax]
      exact ih s l2 _ _ hts hs hax

/-! ## C2 -/

/-- A spatial-reference text with two AUTHORITY occurrences, the general
one (4326) before the specific one (25832). -/
def c2demoText : String :=
  "AUTHORITY[\"EPSG\",\"4326\"]AUTHORITY[\"EPSG\",\"25832\"]AXIS[\"Easting\",EAST]"

/-- C2: for every tile whose selected spatial-reference text contains at
least one AUTHORITY EPSG occurrence, the extraction loop resolves the
tile's EPSG code to the last occurrence in that text; on the demo text
that is 25832, the last occurrence, not the first (4326). -/
theorem c2_epsg_last_occurrence :
    (∀ (sources : List String) (s : String),
       selectedWkt sources = some s → findAuthorityCodes s ≠ [] →
       (extractFromSources sources).1 = (findAuthorityCodes s).getLast?) ∧
    ((extractFromSources [c2demoText]).1 = some 25832 ∧
      (findAuthorityCodes c2demoText).head? = some 4326 ∧
      (findAuthorityCodes c2demoText).getLast? = some 25832) := by
  constructor
  · intro sources s hsel hne
    exact extractEpsgAxis_selected sources none [] s hsel hne
  · refine ⟨by decide, by decide, by decide⟩

/-- Witness for C2 at the demo text. -/
theorem c2_epsg_last_occurrence_witness :
    (extractFromSources [c2demoText]).1 = (findAuthorityCodes c2demoText).getLast? :=
  c2_epsg_last_occurrence.1 [c2demoText] c2demoText (by decide) (by decide)

/-! ## C8 -/

/-- First candidate: non-empty, has an AUTHORITY occurrence, no AXIS
clause. -/
def c8t1 : String := "AUTHORITY[\"EPSG\",\"4326\"]"

/-- Second candidate: non-empty, different AUTHORITY occurrence, with an
AXIS clause. -/
def c8t2 : String := "AUTHORITY[\"EPSG\",\"25832\"]AXIS[\"Easting\",EAST]"

/-- C8 counterexample: the first candidate `c8t1` is non-empty and holds
EPSG 4326, yet the extraction over `[c8t1, c8t2]` returns 25832 and the
axis order of the second candidate — the later candidate contributed
after a non-empty candidate had been found, because the loop only stops
at the first candidate with a non-empty axis-label list. -/
theorem c8_first_candidate_counterexample :
    extractFromSources [c8t1, c8t2] = (some 25832, ["Easting"]) ∧
    c8t1.isEmpty = false ∧
    findAuthorityCodes c8t1 = [4326] ∧
    extract_axis_order c8t1 = [] := by decide

/-- C8 amended: the extractor scans the candidates in fixed priority
order and stops at the first non-empty candidate whose axis-label list is
non-empty; candidates after that one do not contribute, and when no
earlier candidate carries an axis clause the axis order comes from the
stopping candidate. -/
theorem c8_extraction_scan_amended :
    (∀ (l1 : List String) (s : String) (l2 l2' : List String),
       ¬ s.isEmpty → ¬ (extract_axis_order s).isEmpty →
       extractFromSources (l1 ++ s :: l2) = extractFromSources (l1 ++ s :: l2')) ∧
    (∀ (l1 : List String) (s : String) (l2 : List String),
       (∀ t ∈ l1, t.isEmpty = true ∨ (extract_axis_order t).isEmpty = true) →
       ¬ s.isEmpty → ¬ (extract_axis_order s).isEmpty →
       (extractFromSources (l1 ++ s :: l2)).2 = extract_axis_order s) := by
  constructor
  · intro l1 s l2 l2' hs hax
    exact extractEpsgAxis_stop_eq l1 s l2 l2' none [] hs hax
  · intro l1 s l2 hl1 hs hax
    exact extractEpsgAxis_stop_axis l1 s l2 none [] hl1 hs hax

/-- Witness for the amended C8 on a concrete candidate list. -/
theorem c8_extraction_scan_amended_witness :
    extractFromSources ["", c8t2, "LATER"] = extractFromSources ["", c8t2] ∧
    (extractFromSources ["", c8t2, "LATER"]).2 = extract_axis_order c8t2 :=
  ⟨c8_extraction_scan_amended.1 [""] c8t2 ["LATER"] [] (by decide) (by decide),
   c8_extraction_scan_amended.2 [""] c8t2 ["LATER"] (by decide) (by decide) (by decide)⟩

/-! ## C3 -/

/-- C3 counterexample: with the unsupported axis order `[]` (fewer than
two labels) the single-polygon path raises the unsupported-axis error,
but the multi-polygon path of the same build silently constructs a
swapped geometry instead of erroring — so the claimed error behaviour
does not hold for multi-polygon boundaries. -/
theorem c3_multipolygon_no_error_counterexample :
    buildBoundary (some (.multiPolygon [[[(1, 2), (3, 4)]]])) [] =
      .ok (some (.multiPolygonXY [[[(2, 1), (4, 3)]]])) ∧
    create_geometry [[(1, 2), (3, 4)]] [] =
      .error "Unsupported or unexpected axis order" := by decide

/-- C3 amended: for single-polygon boundaries, (Easting, Northing) builds
directly, (Northing, Easting) swaps every pair, and any other pairing is
the unsupported-axis error; for multi-polygon boundaries, (Easting,
Northing) builds directly and every other axis list — including
unsupported ones — swaps every pair silently, with no error branch. -/
theorem c3_axis_handling_amended :
    (∀ (coordinates : List (List Pt)) (axis_order : List String),
       axis_order.take 2 = ["Easting", "Northing"] →
       create_geometry coordinates axis_order =
         .ok (.polygonXY [coordinates.headD []])) ∧
    (∀ (coordinates : List (List Pt)) (axis_order : List String),
       axis_order.take 2 = ["Northing", "Easting"] →
       create_geometry coordinates axis_order =
         .ok (.polygonXY [(coordinates.headD []).map (fun p => (p.2, p.1))])) ∧
    (∀ (coordinates : List (List Pt)) (axis_order : List String),
       axis_order.take 2 ≠ ["Easting", "Northing"] →
       axis_order.take 2 ≠ ["Northing", "Easting"] →
       create_geometry coordinates axis_order =
         .error "Unsupported or unexpected axis order") ∧
    (∀ (multi : List (List (List Pt))) (axis_order : List String),
       axis_order.take 2 = ["Easting", "Northing"] →
       multiPolygonRings multi axis_order = .multiPolygonXY multi) ∧
    (∀ (multi : List (List (List Pt))) (axis_order : List String),
       axis_order.take 2 ≠ ["Easting", "Northing"] →
       multiPolygonRings multi axis_order =
         .multiPolygonXY (multi.map (fun poly =>
           poly.map (fun ring => ring.map (fun p => (p.2, p.1)))))) := by
  refine ⟨?_, ?_, ?_, ?_, ?_⟩
  · intro coordinates axis_order h
    simp [create_geometry, h]
  · intro coordinates axis_order h
    have h' : axis_order.take 2 ≠ ["Easting", "Northing"] := by
      rw [h]; decide
    simp [create_geometry, h, h']
  · intro coordinates axis_order h1 h2
    simp [create_geometry, h1, h2]
  · intro multi axis_order h
    simp [multiPolygonRings, h]
  · intro multi axis_order h
    simp [multiPolygonRings, h]

/-- Witness for the amended C3 at concrete inputs. -/
theorem c3_axis_handling_amended_witness :
    create_geometry [[(1, 2)]] ["Easting", "Northing"] = .ok (.polygonXY [[(1, 2)]]) ∧
    create_geometry [[(1, 2)]] ["Up"] = .error "Unsupported or unexpected axis order" ∧
    multiPolygonRings [[[(1, 2)]]] ["Up"] = .multiPolygonXY [[[(2, 1)]]] :=
  ⟨c3_axis_handling_amended.1 [[(1, 2)]] ["Easting", "Northing"] (by decide),
   c3_axis_handling_amended.2.2.1 [[(1, 2)]] ["Up"] (by decide) (by decide),
   c3_axis_handling_amended.2.2.2.2 [[[(1, 2)]]] ["Up"] (by decide)⟩

/-! ## Lemmas about the catalog build -/

/-- The single-CRS state invariant: every record's EPSG equals the
catalog CRS, and the writer (created together with `first_crs`) exists
exactly when a record has been accepted. -/
def catalogInv (st : BuildState) : Prop :=
  (∀ r ∈ st.records, st.first_crs = some r.epsg) ∧
  (st.first_crs = none ↔ st.records = [])

theorem catalogInv_logEvent {st : BuildState} (e : Event) (h : catalogInv st) :
    catalogInv (logEvent st e) := by
  simpa [catalogInv, logEvent] using h

theorem catalogInv_acceptOrSkip {st : BuildState} (f : FileInfo) (epsg : Nat)
    (encoding : String) (h : catalogInv st) :
    catalogInv (acceptOrSkip st f epsg encoding) := by
  obtain ⟨h1, h2⟩ := h
  by_cases hn : st.first_crs = none
  · have hrec : st.records = [] := h2.mp hn
    simp [acceptOrSkip, hn, catalogInv, logEvent, hrec]
  · simp only [acceptOrSkip]
    rw [if_neg hn]
    by_cases he : st.first_crs = some epsg
    · rw [if_neg (not_not_intro he)]
      refine ⟨?_, ?_, ?_⟩
      · intro r hr
        rcases List.mem_append.mp hr with hr | hr
        · exact h1 r hr
        · simp only [List.mem_singleton] at hr
          subst hr
          simpa using he
      · intro hcon
        exact absurd hcon hn
      · intro hcon
        simp at hcon
    · rw [if_pos he]
      exact catalogInv_logEvent _ ⟨h1, h2⟩

/-- Events that a step can append after its `processing` message. -/
def auxEvent : Event → Bool
  | .processing _ => false
  | _ => true

/-- Every successful step has one of three shapes: the file was filtered
out by the suffix test and the state is untouched; the file was skipped,
adding the `processing` message and one further feedback event; or the
file reached the accept-or-skip stage. -/
theorem stepFile_ok_shape {valid : Geom → Bool} {st st' : BuildState} {f : FileInfo}
    (h : stepFile valid st f = .ok st') :
    (¬ catalogSuffixOK f.fileName ∧ st' = st) ∨
    (catalogSuffixOK f.fileName ∧ ∃ ev : Event, auxEvent ev = true ∧
      st' = logEvent (logEvent st (.processing f.fileName)) ev) ∨
    (catalogSuffixOK f.fileName ∧ ∃ epsg encoding,
      st' = acceptOrSkip (logEvent st (.processing f.fileName)) f epsg encoding) := by
  simp only [stepFile] at h
  split at h
  · rename_i hsuf
    split at h
    · rename_i hp
      split at h
      · exact absurd h (by simp)
      · injection h with h
        exact .inr (.inl ⟨hsuf, .invalidGeometry f.fileName, rfl, h.symm⟩)
      · rename_i g heq
        split at h
        · injection h with h
          exact .inr (.inl ⟨hsuf, .invalidGeometry f.fileName, rfl, h.symm⟩)
        · split at h
          · injection h with h
            exact .inr (.inl ⟨hsuf, .missingCrs f.fileName, rfl, h.symm⟩)
          · rename_i epsg he
            split at h
            · injection h with h
              exact .inr (.inl ⟨hsuf, .missingCrs f.fileName, rfl, h.symm⟩)
            · injection h with h
              exact .inr (.inr ⟨hsuf, epsg, _, h.symm⟩)
    · rename_i hp
      injection h with h
      exact .inr (.inl ⟨hsuf, .pdalError f.fileName, rfl, h.symm⟩)
  · rename_i hsuf
    injection h with h
    exact .inl ⟨hsuf, h.symm⟩

theorem stepFile_ok_inv {valid : Geom → Bool} {st st' : BuildState} {f : FileInfo}
    (hinv : catalogInv st) (h : stepFile valid st f = .ok st') : catalogInv st' := by
  rcases stepFile_ok_shape h with ⟨_, rfl⟩ | ⟨_, ev, _, rfl⟩ | ⟨_, epsg, enc, rfl⟩
  · exact hinv
  · exact catalogInv_logEvent _ (catalogInv_logEvent _ hinv)
  · exact catalogInv_acceptOrSkip _ _ _ (catalogInv_logEvent _ hinv)

theorem foldlM_stepFile_inv {valid : Geom → Bool} :
    ∀ (files : List FileInfo) (st st' : BuildState), catalogInv st →
    List.foldlM (stepFile valid) st files = .ok st' → catalogInv st' := by
  intro files
  induction files with
  | nil =>
    intro st st' hinv h
    rw [List.foldlM_nil] at h
    injection h with h
    exact h ▸ hinv
  | cons f fs ih =>
    intro st st' hinv h
    rw [List.foldlM_cons] at h
    cases hs : stepFile valid st f with
    | error e =>
      rw [hs] at h
      exact Except.noConfusion h
    | ok st1 =>
      rw [hs] at h
      exact ih st1 st' (stepFile_ok_inv hinv hs) h

theorem acceptOrSkip_fixed_crs (st : BuildState) {e : Nat} (f : FileInfo)
    (epsg : Nat) (encoding : String) (hc : st.first_crs = some e) :
    (acceptOrSkip st f epsg encoding).first_crs = some e ∧
    ∀ r ∈ (acceptOrSkip st f epsg encoding).records,
      r ∈ st.records ∨ r.epsg = e := by
  unfold acceptOrSkip
  have hne : ¬ st.first_crs = none := by simp [hc]
  rw [if_neg hne]
  by_cases he : st.first_crs = some epsg
  · rw [if_neg (not_not_intro he)]
    refine ⟨hc, ?_⟩
    intro r hr
    rcases List.mem_append.mp hr with hr | hr
    · exact .inl hr
    · simp only [List.mem_singleton] at hr
      subst hr
      right
      have : some epsg = some e := by rw [← he, hc]
      simpa using this
  · rw [if_pos he]
    exact ⟨hc, fun r hr => .inl hr⟩

/-- Once `first_crs` is fixed, a successful step never changes it, and
every record it may add carries that very EPSG. -/
theorem stepFile_fixed_crs {valid : Geom → Bool} {st st' : BuildState}
    {f : FileInfo} {e : Nat} (hc : st.first_crs = some e)
    (h : stepFile valid st f = .ok st') :
    st'.first_crs = some e ∧ ∀ r ∈ st'.records, r ∈ st.records ∨ r.epsg = e := by
  rcases stepFile_ok_shape h with ⟨_, rfl⟩ | ⟨_, ev, _, rfl⟩ | ⟨_, epsg, enc, rfl⟩
  · exact ⟨hc, fun r hr => .inl hr⟩
  · exact ⟨by simpa [logEvent] using hc, fun r hr => .inl (by simpa [logEvent] using hr)⟩
  · have := acceptOrSkip_fixed_crs (logEvent st (.processing f.fileName))
      f epsg enc (by simpa [logEvent] using hc)
    exact ⟨this.1, fun r hr => by
      rcases this.2 r hr with hr' | hr'
      · exact .inl (by simpa [logEvent] using hr')
      · exact .inr hr'⟩

/-! ## C1 -/

/-- C1: during a catalog build, every record of a successfully finished
build carries the catalog EPSG (`first_crs`), the writer exists (i.e.
`first_crs` is set) exactly when at least one record was accepted, and
once the first accepted file has fixed `first_crs` no later successful
step changes it — a later file with a different EPSG can only be skipped,
never appended, while the build goes on. -/
theorem c1_catalog_single_crs :
    (∀ (valid : Geom → Bool) (files : List FileInfo) (st : BuildState),
       buildCatalog valid files = .ok st →
       (∀ r ∈ st.records, st.first_crs = some r.epsg) ∧
       (st.first_crs = none ↔ st.records = [])) ∧
    (∀ (valid : Geom → Bool) (st₀ : BuildState) (f : FileInfo) (st₁ : BuildState)
       (e : Nat), st₀.first_crs = some e → stepFile valid st₀ f = .ok st₁ →
       st₁.first_crs = some e ∧ ∀ r ∈ st₁.records, r ∈ st₀.records ∨ r.epsg = e) ∧
    (∀ (valid : Geom → Bool) (st : BuildState) (f : FileInfo) (g : Geom)
       (e e' : Nat), st.first_crs = some e →
       catalogSuffixOK f.fileName = true → f.pdalOk = true →
       buildBoundary f.boundary (extractFromSources (wktSources f.metadata)).2 =
         .ok (some g) →
       valid g = true →
       (extractFromSources (wktSources f.metadata)).1 = some e' →
       e' ≠ 0 → e' ≠ e →
       stepFile valid st f =
         .ok (logEvent (logEvent st (.processing f.fileName))
           (.crsMismatch f.fileName))) := by
  refine ⟨?_, ?_, ?_⟩
  · intro valid files st h
    exact foldlM_stepFile_inv files ⟨none, [], []⟩ st (by simp [catalogInv]) h
  · intro valid st₀ f st₁ e hc h
    exact stepFile_fixed_crs hc h
  · intro valid st f g e e' hc hsuf hp hb hv he h0 hne
    have hne' : e ≠ e' := Ne.symm hne
    simp [stepFile, hsuf, hp, hb, hv, he, h0, acceptOrSkip, logEvent, hc, hne',
      List.append_assoc]

/-- Spatial-reference text carrying one EPSG authority and a full axis
pair, as `pdal info` reports for a projected CRS. -/
def demoWkt (code : String) : String :=
  "AUTHORITY[\"EPSG\",\"" ++ code ++ "\"]AXIS[\"Easting\",EAST],AXIS[\"Northing\",NORTH]"

def demoMeta (code : String) : Metadata :=
  ⟨demoWkt code, "", ⟨"", ""⟩, true, false⟩

def squareRing : List (List Pt) := [[(0, 0), (1, 0), (1, 1), (0, 1), (0, 0)]]

def fileA : FileInfo := ⟨"a.laz", true, demoMeta "25832", some (.polygon squareRing)⟩

def fileB : FileInfo := ⟨"b.laz", true, demoMeta "4326", some (.polygon squareRing)⟩

def c1demoState : BuildState :=
  ⟨some 25832, [⟨"a.laz", 25832, "laz", false⟩],
   [.processing "a.laz", .processing "b.laz", .crsMismatch "b.laz"]⟩

/-- Witness for C1: a two-file batch whose second file has a different
EPSG builds successfully with one record, and the invariant holds on the
result. -/
theorem c1_catalog_single_crs_witness :
    (∀ r ∈ c1demoState.records, c1demoState.first_crs = some r.epsg) ∧
    (c1demoState.first_crs = none ↔ c1demoState.records = []) :=
  c1_catalog_single_crs.1 (fun _ => true) [fileA, fileB] c1demoState (by decide)

/-! ## C4 -/

theorem create_geometry_error {coordinates : List (List Pt)}
    {axis_order : List String} {e : String}
    (h : create_geometry coordinates axis_order = .error e) :
    e = "Unsupported or unexpected axis order" := by
  unfold create_geometry at h
  split at h
  · exact Except.noConfusion h
  · split at h
    · exact Except.noConfusion h
    · injection h with h
      exact h.symm

theorem buildBoundary_error {b : Option BoundaryJson} {axis_order : List String}
    {e : String} (h : buildBoundary b axis_order = .error e) :
    e = "Unsupported or unexpected axis order" := by
  cases b with
  | none => simp [buildBoundary] at h
  | some bj =>
    cases bj with
    | polygon coordinates =>
      simp only [buildBoundary] at h
      split at h
      · exact Except.noConfusion h
      · cases hg : create_geometry coordinates axis_order with
        | error e2 =>
          rw [hg] at h
          injection h with h
          exact h ▸ create_geometry_error hg
        | ok g =>
          rw [hg] at h
          exact Except.noConfusion h
    | multiPolygon multi_coordinates =>
      simp only [buildBoundary] at h
      split at h
      · exact Except.noConfusion h
      · exact Except.noConfusion h
    | otherType => simp [buildBoundary] at h

/-- The only error that can escape a build step is the unsupported-axis
`ValueError` of `create_geometry`. -/
theorem stepFile_error {valid : Geom → Bool} {st : BuildState} {f : FileInfo}
    {e : String} (h : stepFile valid st f = .error e) :
    e = "Unsupported or unexpected axis order" := by
  simp only [stepFile] at h
  split at h
  · split at h
    · split at h
      · rename_i e2 heq
        injection h with h
        exact h ▸ buildBoundary_error heq
      · exact Except.noConfusion h
      · split at h
        · exact Except.noConfusion h
        · split at h
          · exact Except.noConfusion h
          · split at h
            · exact Except.noConfusion h
            · exact Except.noConfusion h
    · exact Except.noConfusion h
  · exact Except.noConfusion h

theorem foldlM_stepFile_error {valid : Geom → Bool} :
    ∀ (files : List FileInfo) (st : BuildState) (e : String),
    List.foldlM (stepFile valid) st files = .error e →
    e = "Unsupported or unexpected axis order" := by
  intro files
  induction files with
  | nil =>
    intro st e h
    rw [List.foldlM_nil] at h
    exact Except.noConfusion h
  | cons f fs ih =>
    intro st e h
    rw [List.foldlM_cons] at h
    cases hs : stepFile valid st f with
    | error e2 =>
      rw [hs] at h
      injection h with h
      exact h ▸ stepFile_error hs
    | ok st1 =>
      rw [hs] at h
      exact ih st1 e h

/-- A file that only lists suffix-matching names but has no axis clause
in any metadata field, with a non-empty single-polygon boundary. -/
def c4badFile : FileInfo :=
  ⟨"c.laz", true, ⟨"", "", ⟨"", ""⟩, true, false⟩, some (.polygon squareRing)⟩

/-- C4 counterexample: the axis-order failure of `c4badFile` raises the
uncaught `ValueError` and terminates the whole build — the batch result
is an error and the following file `fileA`, which alone builds into a
one-record catalog, is never reached.  So not every per-file failure kind
is a reported, skippable error. -/
theorem c4_uncaught_axis_counterexample :
    buildCatalog (fun _ => true) [c4badFile, fileA] =
      .error "Unsupported or unexpected axis order" ∧
    buildCatalog (fun _ => true) [fileA] =
      .ok ⟨some 25832, [⟨"a.laz", 25832, "laz", false⟩], [.processing "a.laz"]⟩ :=
  ⟨by decide, by decide⟩

/-- C4 amended: external info-tool failure, invalid geometry and missing
EPSG are each reported for that one file as a feedback event and the step
succeeds, so the loop continues; but a missing or unsupported axis order
reaching `create_geometry` raises an uncaught error, which is the only
way a build terminates early. -/
theorem c4_per_file_errors_amended :
    (∀ (valid : Geom → Bool) (files : List FileInfo) (e : String),
       buildCatalog valid files = .error e →
       e = "Unsupported or unexpected axis order") ∧
    (∀ (valid : Geom → Bool) (st : BuildState) (f : FileInfo),
       catalogSuffixOK f.fileName = true → f.pdalOk = false →
       stepFile valid st f =
         .ok (logEvent (logEvent st (.processing f.fileName))
           (.pdalError f.fileName))) ∧
    (∀ (valid : Geom → Bool) (st : BuildState) (f : FileInfo),
       catalogSuffixOK f.fileName = true → f.pdalOk = true →
       buildBoundary f.boundary (extractFromSources (wktSources f.metadata)).2 =
         .ok none →
       stepFile valid st f =
         .ok (logEvent (logEvent st (.processing f.fileName))
           (.invalidGeometry f.fileName))) ∧
    (∀ (valid : Geom → Bool) (st : BuildState) (f : FileInfo) (g : Geom),
       catalogSuffixOK f.fileName = true → f.pdalOk = true →
       buildBoundary f.boundary (extractFromSources (wktSources f.metadata)).2 =
         .ok (some g) →
       valid g = true →
       (extractFromSources (wktSources f.metadata)).1 = none →
       stepFile valid st f =
         .ok (logEvent (logEvent st (.processing f.fileName))
           (.missingCrs f.fileName))) ∧
    (∀ (valid : Geom → Bool) (st st' : BuildState) (f : FileInfo)
       (rest : List FileInfo), stepFile valid st f = .ok st' →
       List.foldlM (stepFile valid) st (f :: rest) =
         List.foldlM (stepFile valid) st' rest) := by
  refine ⟨?_, ?_, ?_, ?_, ?_⟩
  · intro valid files e h
    exact foldlM_stepFile_error files ⟨none, [], []⟩ e h
  · intro valid st f hsuf hp
    simp [stepFile, hsuf, hp]
  · intro valid st f hsuf hp hb
    simp [stepFile, hsuf, hp, hb]
  · intro valid st f g hsuf hp hb hv he
    simp [stepFile, hsuf, hp, hb, hv, he]
  · intro valid st st' f rest h
    rw [List.foldlM_cons, h]
    rfl

/-- A suffix-matching file on which the external info tool fails. -/
def c4pdalFailFile : FileInfo :=
  ⟨"p.laz", false, ⟨"", "", ⟨"", ""⟩, false, false⟩, none⟩

/-- Witness for the amended C4: an info-tool failure is logged for that
file and the step stays successful. -/
theorem c4_per_file_errors_amended_witness :
    stepFile (fun _ => true) ⟨none, [], []⟩ c4pdalFailFile =
      .ok (logEvent (logEvent ⟨none, [], []⟩ (.processing "p.laz"))
        (.pdalError "p.laz")) :=
  c4_per_file_errors_amended.2.1 (fun _ => true) ⟨none, [], []⟩ c4pdalFailFile
    (by decide) (by decide)

/-! ## C9 -/

/-- The names announced by `Processing {file_path}` messages, in order. -/
def processingNames (evs : List Event) : List String :=
  evs.filterMap (fun e => match e with | .processing n => some n | _ => none)

theorem processingNames_append (a b : List Event) :
    processingNames (a ++ b) = processingNames a ++ processingNames b :=
  List.filterMap_append a b _

theorem processingNames_aux {ev : Event} (h : auxEvent ev = true) :
    processingNames [ev] = [] := by
  cases ev <;> simp_all [auxEvent, processingNames]

theorem acceptOrSkip_events (st : BuildState) (f : FileInfo) (epsg : Nat)
    (encoding : String) :
    (acceptOrSkip st f epsg encoding).events = st.events ∨
    (acceptOrSkip st f epsg encoding).events =
      st.events ++ [.crsMismatch f.fileName] := by
  by_cases hn : st.first_crs = none
  · simp only [acceptOrSkip, if_pos hn]
    split
    · exact .inr rfl
    · exact .inl rfl
  · simp only [acceptOrSkip, if_neg hn]
    split
    · exact .inr rfl
    · exact .inl rfl

theorem stepFile_processingNames {valid : Geom → Bool} {st st' : BuildState}
    {f : FileInfo} (h : stepFile valid st f = .ok st') :
    processingNames st'.events =
      processingNames st.events ++
        (if catalogSuffixOK f.fileName then [f.fileName] else []) := by
  rcases stepFile_ok_shape h with ⟨hsuf, rfl⟩ | ⟨hsuf, ev, hev, rfl⟩ |
    ⟨hsuf, epsg, enc, rfl⟩
  · simp [hsuf]
  · show processingNames (st.events ++ [.processing f.fileName] ++ [ev]) = _
    rw [processingNames_append, processingNames_append, processingNames_aux hev]
    simp [processingNames, hsuf]
  · rcases acceptOrSkip_events (logEvent st (.processing f.fileName)) f epsg enc
      with hev | hev
    · rw [hev]
      show processingNames (st.events ++ [.processing f.fileName]) = _
      rw [processingNames_append]
      simp [processingNames, hsuf]
    · rw [hev]
      show processingNames
        (st.events ++ [.processing f.fileName] ++ [.crsMismatch f.fileName]) = _
      rw [processingNames_append, processingNames_append]
      simp [processingNames, hsuf]

theorem foldlM_processingNames {valid : Geom → Bool} :
    ∀ (files : List FileInfo) (st st' : BuildState),
    List.foldlM (stepFile valid) st files = .ok st' →
    processingNames st'.events =
      processingNames st.events ++
        (files.map (fun f => f.fileName)).filter catalogSuffixOK := by
  intro files
  induction files with
  | nil =>
    intro st st' h
    rw [List.foldlM_nil] at h
    injection h with h
    simp [← h]
  | cons f fs ih =>
    intro st st' h
    rw [List.foldlM_cons] at h
    cases hs : stepFile valid st f with
    | error e =>
      rw [hs] at h
      exact Except.noConfusion h
    | ok st1 =>
      rw [hs] at h
      rw [ih st1 st' h, stepFile_processingNames hs]
      by_cases hsuf : catalogSuffixOK f.fileName <;>
        simp [hsuf, List.filter_cons]

/-- C9 amended: the catalog builder processes exactly the files whose
name ends with `.laz` or `.las` matched case-sensitively — a file whose
suffix differs only in letter case is not processed; the case-insensitive
suffix match belongs to the assign-CRS folder operation. -/
theorem c9_suffix_filter_amended :
    (∀ (valid : Geom → Bool) (files : List FileInfo) (st : BuildState),
       buildCatalog valid files = .ok st →
       processingNames st.events =
         (files.map (fun f => f.fileName)).filter catalogSuffixOK) ∧
    catalogSuffixOK "TILE.LAZ" = false ∧
    catalogSuffixOK "tile.laz" = true ∧
    assignCrsFiles ["TILE.LAZ", "readme.txt"] = ["TILE.LAZ"] := by
  refine ⟨?_, by decide, by decide, by decide⟩
  intro valid files st h
  have := foldlM_processingNames files ⟨none, [], []⟩ st h
  simpa [processingNames] using this

/-- A file whose suffix matches only case-insensitively. -/
def c9upperFile : FileInfo :=
  ⟨"TILE.LAZ", false, ⟨"", "", ⟨"", ""⟩, false, false⟩, none⟩

/-- C9 counterexample: `TILE.LAZ` matches the recognized suffixes
case-insensitively, yet the build leaves the state untouched — the file
is never processed (no feedback event, no record, no writer), refuting
the claimed case-insensitive match of the catalog builder. -/
theorem c9_case_sensitive_counterexample :
    buildCatalog (fun _ => true) [c9upperFile] = .ok ⟨none, [], []⟩ ∧
    strEndsWith (strToLower "TILE.LAZ") ".laz" = true :=
  ⟨by decide, by decide⟩

def c9txtFile : FileInfo :=
  ⟨"readme.txt", false, ⟨"", "", ⟨"", ""⟩, false, false⟩, none⟩

/-- Witness for the amended C9 on a batch with one matching and one
non-matching file. -/
theorem c9_suffix_filter_amended_witness :
    processingNames
        (BuildState.events
          ⟨some 25832, [⟨"a.laz", 25832, "laz", false⟩], [.processing "a.laz"]⟩) =
      (([fileA, c9txtFile].map (fun f => f.fileName)).filter catalogSuffixOK) :=
  c9_suffix_filter_amended.1 (fun _ => true) [fileA, c9txtFile]
    ⟨some 25832, [⟨"a.laz", 25832, "laz", false⟩], [.processing "a.laz"]⟩
    (by decide)

/-! ## C5 -/

theorem collectLazFiles_spec (ex : String → Bool) (folder : String)
    (names : List String) :
    collectLazFiles ex folder names =
      (names.filterMap (fun fn =>
         if fn = "" ∨ ¬ (ex (joinPath folder fn) = true) then none
         else some (joinPath folder fn)),
       names.filterMap (fun fn =>
         if fn = "" ∨ ¬ (ex (joinPath folder fn) = true) then
           some (joinPath folder fn)
         else none)) := by
  have go : ∀ (l : List String) (acc : List String × List String),
      l.foldl (fun acc fn =>
        let p := joinPath folder fn
        if fn = "" ∨ ¬ ex p then (acc.1, acc.2 ++ [p])
        else (acc.1 ++ [p], acc.2)) acc =
      (acc.1 ++ l.filterMap (fun fn =>
         if fn = "" ∨ ¬ (ex (joinPath folder fn) = true) then none
         else some (joinPath folder fn)),
       acc.2 ++ l.filterMap (fun fn =>
         if fn = "" ∨ ¬ (ex (joinPath folder fn) = true) then
           some (joinPath folder fn)
         else none)) := by
    intro l
    induction l with
    | nil => intro acc; simp
    | cons fn rest ih =>
      intro acc
      rw [List.foldl_cons, ih]
      by_cases hc : fn = "" ∨ ex (joinPath folder fn) = false
      · simp [List.filterMap_cons, hc]
      · simp [List.filterMap_cons, hc]
  unfold collectLazFiles
  simpa using go names ([], [])

theorem mem_collect_valid {ex : String → Bool} {folder : String}
    {names : List String} {p : String}
    (h : p ∈ (collectLazFiles ex folder names).1) : ex p = true := by
  rw [collectLazFiles_spec] at h
  simp only [List.mem_filterMap] at h
  obtain ⟨fn, _, hif⟩ := h
  split at hif
  · exact Option.noConfusion hif
  · rename_i hc
    injection hif with hif
    push_neg at hc
    exact hif ▸ hc.2

/-- C5: with a confirmed, non-empty selection, every selected record
whose resolved path does not exist is reported and excluded from the
collected paths; if fewer than two paths remain the run carries the
too-few-files fatal error and no merge command; with at least two paths
the single merge command is exactly `pdal merge` over the valid paths,
the output file and the explicit CRS argument. -/
theorem c5_merge_preconditions :
    ∀ (ex : String → Bool) (folder outputFile : String) (srid : Nat)
      (names : List String), names ≠ [] →
    (∀ fn ∈ names, ex (joinPath folder fn) = false →
       joinPath folder fn ∈ (mergeProcess ex folder outputFile srid names true).reports ∧
       joinPath folder fn ∉ (collectLazFiles ex folder names).1) ∧
    ((collectLazFiles ex folder names).1.length < 2 →
       (mergeProcess ex folder outputFile srid names true).command = none ∧
       (mergeProcess ex folder outputFile srid names true).fatal =
         some .tooFewFiles) ∧
    (2 ≤ (collectLazFiles ex folder names).1.length →
       (mergeProcess ex folder outputFile srid names true).fatal = none ∧
       (mergeProcess ex folder outputFile srid names true).command =
         some (["pdal", "merge"] ++ (collectLazFiles ex folder names).1 ++
           [outputFile, crsArgument srid])) := by
  intro ex folder outputFile srid names hne
  have hrep : (mergeProcess ex folder outputFile srid names true).reports =
      (collectLazFiles ex folder names).2 := by
    simp only [mergeProcess, hne, not_true, if_false, ite_false]
    split <;> rfl
  refine ⟨?_, ?_, ?_⟩
  · intro fn hfn hex
    constructor
    · rw [hrep, collectLazFiles_spec]
      simp only [List.mem_filterMap]
      refine ⟨fn, hfn, ?_⟩
      rw [if_pos (.inr (by simp [hex]))]
    · intro hmem
      have := mem_collect_valid hmem
      rw [this] at hex
      exact Bool.noConfusion hex
  · intro hlt
    constructor <;> simp [mergeProcess, hne, hlt]
  · intro hge
    have hlt' : ¬ (collectLazFiles ex folder names).1.length < 2 := by omega
    constructor <;> simp [mergeProcess, hne, hlt']

/-- Witness for C5: two existing files and one missing file — the
missing one is reported, and the command covers exactly the two valid
paths plus the CRS argument. -/
theorem c5_merge_preconditions_witness :
    joinPath "f" "miss.laz" ∈
      (mergeProcess (fun p => decide (p = "f/x.laz" ∨ p = "f/y.laz")) "f" "out.laz"
        25832 ["x.laz", "miss.laz", "y.laz"] true).reports ∧
    (mergeProcess (fun p => decide (p = "f/x.laz" ∨ p = "f/y.laz")) "f" "out.laz"
        25832 ["x.laz", "miss.laz", "y.laz"] true).command =
      some (["pdal", "merge"] ++
        (collectLazFiles (fun p => decide (p = "f/x.laz" ∨ p = "f/y.laz")) "f"
          ["x.laz", "miss.laz", "y.laz"]).1 ++
        ["out.laz", crsArgument 25832]) :=
  ⟨(c5_merge_preconditions (fun p => decide (p = "f/x.laz" ∨ p = "f/y.laz")) "f"
      "out.laz" 25832 ["x.laz", "miss.laz", "y.laz"] (by decide)).1 "miss.laz"
      (by decide) (by decide) |>.1,
   ((c5_merge_preconditions (fun p => decide (p = "f/x.laz" ∨ p = "f/y.laz")) "f"
      "out.laz" 25832 ["x.laz", "miss.laz", "y.laz"] (by decide)).2.2
      (by decide)).2⟩

/-! ## C6 -/

/-- Characterization of the delete loop: the marked ids, the file
counter, the removed paths and the reported paths are all determined by
which items' backing files exist and remove successfully. -/
theorem deleteFold_spec (ex rmOk : String → Bool) (folder : String) :
    ∀ (items : List DeleteItem) (acc : DeleteOutcome),
    items.foldl (deleteStep ex rmOk folder) acc =
      ⟨acc.features_to_delete ++
         (items.filter (fun it => ex (joinPath folder it.filename) &&
            rmOk (joinPath folder it.filename))).map (fun it => it.fid),
       acc.laz_files_deleted +
         (items.filter (fun it => ex (joinPath folder it.filename) &&
            rmOk (joinPath folder it.filename))).length,
       acc.removed ++
         (items.filter (fun it => ex (joinPath folder it.filename) &&
            rmOk (joinPath folder it.filename))).map
           (fun it => joinPath folder it.filename),
       acc.reports ++
         (items.filter (fun it => !(ex (joinPath folder it.filename) &&
            rmOk (joinPath folder it.filename)))).map
           (fun it => joinPath folder it.filename)⟩ := by
  intro items
  induction items with
  | nil => intro acc; simp
  | cons it rest ih =>
    intro acc
    rw [List.foldl_cons, ih]
    by_cases hex : ex (joinPath folder it.filename) = true
    · by_cases hrm : rmOk (joinPath folder it.filename) = true
      · simp [deleteStep, hex, hrm, List.filter_cons]
        omega
      · simp [deleteStep, hex, hrm, List.filter_cons]
    · simp [deleteStep, hex, List.filter_cons]

/-- C6 amended: a record is marked for removal exactly when the removal
of its backing file succeeded; a missing file or a failed removal leaves
it unmarked.  The deleted-file count and the marked-record list are
accumulated separately, but they never diverge: the count always equals
the number of marked records, since both count exactly the successful
removals. -/
theorem c6_delete_marking_amended :
    ∀ (ex rmOk : String → Bool) (folder : String) (items : List DeleteItem)
      (confirm : Bool) (out : DeleteOutcome),
    deleteProcess ex rmOk true folder items confirm = .ok out →
    out.features_to_delete =
      (items.filter (fun it => ex (joinPath folder it.filename) &&
         rmOk (joinPath folder it.filename))).map (fun it => it.fid) ∧
    out.laz_files_deleted = out.features_to_delete.length ∧
    out.removed =
      (items.filter (fun it => ex (joinPath folder it.filename) &&
         rmOk (joinPath folder it.filename))).map
        (fun it => joinPath folder it.filename) ∧
    out.reports =
      (items.filter (fun it => !(ex (joinPath folder it.filename) &&
         rmOk (joinPath folder it.filename)))).map
        (fun it => joinPath folder it.filename) := by
  intro ex rmOk folder items confirm out h
  simp only [deleteProcess] at h
  split at h
  · exact Except.noConfusion h
  · split at h
    · exact Except.noConfusion h
    · split at h
      · exact Except.noConfusion h
      · injection h with h
        rw [← h, deleteFold_spec]
        simp

/-- C6 counterexample: in the spec's own scenario — one backing file
already missing (record kept), one backing file deleted (record also
deleted) — the deleted-file count and the deleted-record count are
equal, not divergent. -/
theorem c6_counts_equal_counterexample :
    deleteProcess (fun p => decide (p = "f/d.laz")) (fun _ => true) true "f"
      [⟨1, "m.laz"⟩, ⟨2, "d.laz"⟩] true =
      .ok ⟨[2], 1, ["f/d.laz"], ["f/m.laz"]⟩ ∧
    (1 : Nat) = [2].length := ⟨by decide, rfl⟩

/-- Witness for the amended C6 at the same scenario plus a failing
removal. -/
theorem c6_delete_marking_amended_witness :
    DeleteOutcome.laz_files_deleted ⟨[2], 1, ["f/d.laz"], ["f/m.laz", "f/p.laz"]⟩ =
      (DeleteOutcome.features_to_delete ⟨[2], 1, ["f/d.laz"], ["f/m.laz", "f/p.laz"]⟩).length :=
  (c6_delete_marking_amended (fun p => decide (p = "f/d.laz" ∨ p = "f/p.laz"))
    (fun p => decide (p = "f/d.laz")) "f"
    [⟨1, "m.laz"⟩, ⟨2, "d.laz"⟩, ⟨3, "p.laz"⟩] true
    ⟨[2], 1, ["f/d.laz"], ["f/m.laz", "f/p.laz"]⟩ (by decide)).2.1

/-! ## C7 -/

/-- C7 counterexample: a delete call with the confirmation flag false
and an empty selection fails with the no-selection error, not the
not-confirmed error the claim requires of every unconfirmed call —
delete checks the selection gate before the confirmation gate. -/
theorem c7_gate_order_counterexample :
    deleteProcess (fun _ => true) (fun _ => true) true "f" [] false =
      .error .noSelection ∧
    DeleteErr.noSelection ≠ DeleteErr.notConfirmed := ⟨by decide, by decide⟩

/-- C7 amended: merge checks confirmation before selection, delete
checks selection before confirmation; each violated precondition fails
the call before any per-item operation (no path reported or collected,
no merge command constructed, no removal attempted): merge with
confirm = false fails not-confirmed for every selection; merge with an
empty selection and confirm = true fails no-selection; delete with an
empty selection fails no-selection for either confirmation flag; delete
with a non-empty selection and confirm = false fails not-confirmed. -/
theorem c7_precondition_gates_amended :
    (∀ (ex : String → Bool) (folder outputFile : String) (srid : Nat)
       (names : List String),
       mergeProcess ex folder outputFile srid names false =
         ⟨[], none, some .notConfirmed⟩) ∧
    (∀ (ex : String → Bool) (folder outputFile : String) (srid : Nat),
       mergeProcess ex folder outputFile srid [] true =
         ⟨[], none, some .noSelection⟩) ∧
    (∀ (ex rmOk : String → Bool) (folder : String) (confirm : Bool),
       deleteProcess ex rmOk true folder [] confirm = .error .noSelection) ∧
    (∀ (ex rmOk : String → Bool) (folder : String) (items : List DeleteItem),
       items ≠ [] →
       deleteProcess ex rmOk true folder items false = .error .notConfirmed) := by
  refine ⟨?_, ?_, ?_, ?_⟩
  · intro ex folder outputFile srid names
    simp [mergeProcess]
  · intro ex folder outputFile srid
    simp [mergeProcess]
  · intro ex rmOk folder confirm
    simp [deleteProcess]
  · intro ex rmOk folder items hne
    simp [deleteProcess, hne]

/-- Witness for the amended C7 at a concrete non-empty selection. -/
theorem c7_precondition_gates_amended_witness :
    deleteProcess (fun _ => true) (fun _ => true) true "f" [⟨1, "a.laz"⟩] false =
      .error .notConfirmed :=
  c7_precondition_gates_amended.2.2.2 (fun _ => true) (fun _ => true) "f"
    [⟨1, "a.laz"⟩] (by decide)

/-! ## C10 -/

theorem dlStep_count (dlOk unpackOk : String → Bool) (unpackZip : Bool)
    (st : DlState) (it : DlItem) :
    (dlStep dlOk unpackOk unpackZip st it).downloaded_files =
      st.downloaded_files +
        (if decide (it.filename ≠ "") && dlOk it.filename then 1 else 0) := by
  unfold dlStep
  by_cases hf : it.filename = ""
  · simp [hf]
  · by_cases hdl : dlOk it.filename = true
    · rw [if_neg hf, if_neg (not_not_intro hdl)]
      split
      · split
        · simp [hf, hdl]
        · simp [hf, hdl]
      · simp [hf, hdl]
    · rw [if_neg hf, if_pos hdl]
      simp [hdl]

theorem dlFold_count (dlOk unpackOk : String → Bool) (unpackZip : Bool) :
    ∀ (items : List DlItem) (acc : DlState),
    (items.foldl (dlStep dlOk unpackOk unpackZip) acc).downloaded_files =
      acc.downloaded_files +
        (items.filter (fun it => decide (it.filename ≠ "") &&
           dlOk it.filename)).length := by
  intro items
  induction items with
  | nil => intro acc; simp
  | cons it rest ih =>
    intro acc
    rw [List.foldl_cons, ih, dlStep_count, List.filter_cons]
    split
    all_goals simp
    all_goals omega

theorem dlStep_events_mono (dlOk unpackOk : String → Bool) (unpackZip : Bool)
    (st : DlState) (it : DlItem) {e : DlEvent} (h : e ∈ st.events) :
    e ∈ (dlStep dlOk unpackOk unpackZip st it).events := by
  unfold dlStep
  split
  · simp [h]
  · split
    · simp [h]
    · split
      · split <;> simp [h]
      · simp [h]

theorem dlFold_events_mono (dlOk unpackOk : String → Bool) (unpackZip : Bool) :
    ∀ (items : List DlItem) (acc : DlState) (e : DlEvent), e ∈ acc.events →
    e ∈ (items.foldl (dlStep dlOk unpackOk unpackZip) acc).events := by
  intro items
  induction items with
  | nil => intro acc e h; simpa using h
  | cons it rest ih =>
    intro acc e h
    rw [List.foldl_cons]
    exact ih _ e (dlStep_events_mono dlOk unpackOk unpackZip acc it h)

theorem dlStep_unpack_fail (dlOk unpackOk : String → Bool) (st : DlState)
    {it : DlItem} (h1 : it.filename ≠ "") (h2 : dlOk it.filename = true)
    (h4 : isZipName it.filename = true) (h5 : unpackOk it.filename = false) :
    (dlStep dlOk unpackOk true st it).events =
      st.events ++ [.downloaded it.filename, .failed it.filename] := by
  unfold dlStep
  rw [if_neg h1, if_neg (by simp [h2]), if_pos ⟨rfl, h4⟩, if_neg (by simp [h5])]
  simp

/-- C10: the downloaded-files count equals the number of selected items
with a non-empty filename whose retrieval completes — independently of
the unpack oracle, so an unpack failure never decrements it — and every
item whose retrieval succeeded but whose unpack raised is both counted
as downloaded and reported as failed, while the batch result covers the
whole selection. -/
theorem c10_download_count :
    ∀ (dlOk unpackOk : String → Bool) (unpackZip : Bool) (items : List DlItem),
    (downloadProcess dlOk unpackOk unpackZip items).downloaded_files =
      (items.filter (fun it => decide (it.filename ≠ "") &&
         dlOk it.filename)).length ∧
    (∀ it ∈ items, it.filename ≠ "" → dlOk it.filename = true →
       isZipName it.filename = true → unpackOk it.filename = false →
       DlEvent.downloaded it.filename ∈
         (downloadProcess dlOk unpackOk true items).events ∧
       DlEvent.failed it.filename ∈
         (downloadProcess dlOk unpackOk true items).events) := by
  intro dlOk unpackOk unpackZip items
  constructor
  · simpa using dlFold_count dlOk unpackOk unpackZip items ⟨0, []⟩
  · intro it hit h1 h2 h4 h5
    obtain ⟨l1, l2, rfl⟩ := List.append_of_mem hit
    unfold downloadProcess
    rw [List.foldl_append, List.foldl_cons]
    constructor
    · refine dlFold_events_mono dlOk unpackOk true l2 _ _ ?_
      rw [dlStep_unpack_fail dlOk unpackOk _ h1 h2 h4 h5]
      simp
    · refine dlFold_events_mono dlOk unpackOk true l2 _ _ ?_
      rw [dlStep_unpack_fail dlOk unpackOk _ h1 h2 h4 h5]
      simp

/-- Witness for C10: two retrievals succeed, the zip's unpack fails —
both files stay counted and the failure is reported. -/
theorem c10_download_count_witness :
    (downloadProcess (fun _ => true) (fun _ => false) true
        [⟨1, "a.zip"⟩, ⟨2, "b.laz"⟩]).downloaded_files =
      ([(⟨1, "a.zip"⟩ : DlItem), ⟨2, "b.laz"⟩].filter
        (fun it => decide (it.filename ≠ "") && true)).length ∧
    DlEvent.failed "a.zip" ∈
      (downloadProcess (fun _ => true) (fun _ => false) true
        [⟨1, "a.zip"⟩, ⟨2, "b.laz"⟩]).events :=
  ⟨(c10_download_count (fun _ => true) (fun _ => false) true
      [⟨1, "a.zip"⟩, ⟨2, "b.laz"⟩]).1,
   ((c10_download_count (fun _ => true) (fun _ => false) true
      [⟨1, "a.zip"⟩, ⟨2, "b.laz"⟩]).2 ⟨1, "a.zip"⟩ (by decide) (by decide)
      (by decide) (by decide) (by decide)).2⟩

end GeoModeler
